import Mathlib

/-!
Verification of the log-to-dataset conversion script (logs_to_chatml.py).

The development shallowly embeds the script:
  - Json values (the result of parsing with the standard json module),
  - a model of json.loads (strict JSON grammar: objects, arrays, strings
    with escapes, numbers, true/false/null, whitespace and the
    whole-input "extra data" check),
  - Python string helpers used by the script (strip, splitlines,
    startswith/endswith, substring membership, truthiness, str()),
  - load_games (the three-case format-tolerant loader),
  - process_logs (the extractor producing werewolf and villager examples),
  - format_conversation (the conversation formatter).

Exceptions raised by Python code are modelled with Except PyError.
Idealisations, none of which the theorems below touch: float values are
kept as exact rationals (so the decimal rendering of a float by str() is
approximated), the NaN/Infinity extensions of the json module are not
parsed, and lone surrogate escapes in strings fall back to a default
character.
-/

/-- A parsed JSON value, as produced by the json module: null, booleans,
integers, floats (kept exact as rationals), strings, arrays, objects
(association lists in insertion order, keys unique). -/
inductive Json where
  | null : Json
  | bool (b : Bool) : Json
  | numInt (n : Int) : Json
  | numFloat (q : Rat) : Json
  | str (s : String) : Json
  | arr (xs : List Json) : Json
  | obj (kvs : List (String × Json)) : Json

mutual

/-- Structural boolean equality on Json values (Python equality restricted
to the value shapes the script compares). -/
def Json.beq : Json → Json → Bool
  | .null, .null => true
  | .bool a, .bool b => a == b
  | .numInt a, .numInt b => a == b
  | .numFloat a, .numFloat b => a == b
  | .str a, .str b => a == b
  | .arr xs, .arr ys => Json.beqList xs ys
  | .obj xs, .obj ys => Json.beqObj xs ys
  | _, _ => false

def Json.beqList : List Json → List Json → Bool
  | [], [] => true
  | x :: xs, y :: ys => Json.beq x y && Json.beqList xs ys
  | _, _ => false

def Json.beqObj : List (String × Json) → List (String × Json) → Bool
  | [], [] => true
  | (k, v) :: xs, (l, w) :: ys => k == l && Json.beq v w && Json.beqObj xs ys
  | _, _ => false

end

/-- isinstance(x, dict) -/
def Json.isObj : Json → Bool
  | .obj _ => true
  | _ => false

/-- isinstance(x, str) -/
def Json.isStr : Json → Bool
  | .str _ => true
  | _ => false

/-- isinstance(x, list) -/
def Json.isArr : Json → Bool
  | .arr _ => true
  | _ => false

/-- Whitespace characters removed by the Python str.strip method
(the ASCII ones; exotic Unicode space code points are not modelled,
no theorem below feeds them in). -/
def pyWs (c : Char) : Bool :=
  c == ' ' || c == '\t' || c == '\n' || c == '\r' || c == '\x0b' || c == '\x0c' ||
  c == '\x1c' || c == '\x1d' || c == '\x1e' || c == '\x85'

/-- Python str.strip(): drop leading and trailing whitespace. -/
def pyStrip (s : String) : String :=
  String.mk (((s.data.dropWhile pyWs).reverse.dropWhile pyWs).reverse)

/-- Line boundary characters recognised by Python str.splitlines. -/
def lineBreakChar (c : Char) : Bool :=
  c == '\n' || c == '\r' || c == '\x0b' || c == '\x0c' ||
  c == '\x1c' || c == '\x1d' || c == '\x1e' || c == '\x85' ||
  c == '\u2028' || c == '\u2029'

/-- Worker for splitlines: acc holds the current line reversed.
A carriage return immediately followed by a newline counts as a single
boundary; a trailing segment is emitted only when nonempty. -/
def splitlinesAux : List Char → List Char → List String
  | [], acc => if acc.isEmpty then [] else [String.mk acc.reverse]
  | '\r' :: '\n' :: rest, acc => String.mk acc.reverse :: splitlinesAux rest []
  | c :: rest, acc =>
    if lineBreakChar c then String.mk acc.reverse :: splitlinesAux rest []
    else splitlinesAux rest (c :: acc)

/-- Python str.splitlines(). -/
def pySplitlines (s : String) : List String :=
  splitlinesAux s.data []

/-- Python str.startswith. -/
def pyStartsWith (s pre : String) : Bool :=
  pre.data.isPrefixOf s.data

/-- Python str.endswith. -/
def pyEndsWith (s suf : String) : Bool :=
  suf.data.isSuffixOf s.data

/-- Contiguous-sublist test: does needle occur inside hay?
Models the Python expression needle in hay for strings. -/
def hasInfix (needle : List Char) : List Char → Bool
  | [] => needle.isEmpty
  | c :: rest => needle.isPrefixOf (c :: rest) || hasInfix needle rest

/-- Python truthiness of a Json value: None and False are falsy, numbers
are falsy exactly at zero, strings and containers exactly when empty. -/
def pyTruthy : Json → Bool
  | .null => false
  | .bool b => b
  | .numInt n => !(n == 0)
  | .numFloat q => !(q == 0)
  | .str s => !s.data.isEmpty
  | .arr xs => !xs.isEmpty
  | .obj kvs => !kvs.isEmpty

/-- A single-quote string, used by the Python repr of strings. -/
def singleQuote : String :=
  String.singleton (Char.ofNat 39)

mutual

/-- Python repr, for the value shapes of Json (string escaping inside
repr and float rendering are approximated; no theorem depends on them). -/
def pyRepr : Json → String
  | .null => "None"
  | .bool b => if b then "True" else "False"
  | .numInt n => toString n
  | .numFloat q => toString q
  | .str s => singleQuote ++ s ++ singleQuote
  | .arr xs => "[" ++ pyReprList xs ++ "]"
  | .obj kvs => "\x7b" ++ pyReprObj kvs ++ "\x7d"

def pyReprList : List Json → String
  | [] => ""
  | [x] => pyRepr x
  | x :: xs => pyRepr x ++ ", " ++ pyReprList xs

def pyReprObj : List (String × Json) → String
  | [] => ""
  | [(k, v)] => singleQuote ++ k ++ singleQuote ++ ": " ++ pyRepr v
  | (k, v) :: kvs =>
    singleQuote ++ k ++ singleQuote ++ ": " ++ pyRepr v ++ ", " ++ pyReprObj kvs

end

/-- Python str() conversion, as performed by an f-string interpolation:
strings pass through unchanged, other values use their repr
(for booleans, None and integers this is exact). -/
def pyStr : Json → String
  | .str s => s
  | j => pyRepr j

/-- Lookup in a parsed JSON object; the parser keeps keys unique, so the
first match is the binding. Models dict subscripting and dict.get. -/
def dictGet (kvs : List (String × Json)) (k : String) : Option Json :=
  match kvs.find? (fun kv => kv.1 == k) with
  | some kv => some kv.2
  | none => none

/-- Insert a key/value pair the way a Python dict does during json
parsing: a repeated key keeps its original position but takes the
latest value. -/
def upsert (kvs : List (String × Json)) (k : String) (v : Json) :
    List (String × Json) :=
  if kvs.any (fun kv => kv.1 == k) then
    kvs.map (fun kv => if kv.1 == k then (k, v) else kv)
  else kvs ++ [(k, v)]

/-- JSON whitespace accepted between tokens by json.loads. -/
def jsonWs (c : Char) : Bool :=
  c == ' ' || c == '\t' || c == '\n' || c == '\r'

/-- Skip token-separating whitespace. -/
def skipWs (cs : List Char) : List Char :=
  cs.dropWhile jsonWs

/-- Value of a hexadecimal digit, if any. -/
def hexVal (c : Char) : Option Nat :=
  if 48 ≤ c.toNat && c.toNat ≤ 57 then some (c.toNat - 48)
  else if 97 ≤ c.toNat && c.toNat ≤ 102 then some (c.toNat - 87)
  else if 65 ≤ c.toNat && c.toNat ≤ 70 then some (c.toNat - 55)
  else none

/-- Parse the body of a JSON string after the opening quote, accumulating
characters in reverse; handles the escape sequences of the JSON grammar
and rejects unescaped control characters (strict mode). -/
def parseStringAux : List Char → List Char → Option (String × List Char)
  | [], _ => none
  | c :: rest, acc =>
    if c == '"' then some (String.mk acc.reverse, rest)
    else if c == '\\' then
      match rest with
      | [] => none
      | e :: rest2 =>
        if e == '"' then parseStringAux rest2 ('"' :: acc)
        else if e == '\\' then parseStringAux rest2 ('\\' :: acc)
        else if e == '/' then parseStringAux rest2 ('/' :: acc)
        else if e == 'b' then parseStringAux rest2 ('\x08' :: acc)
        else if e == 'f' then parseStringAux rest2 ('\x0c' :: acc)
        else if e == 'n' then parseStringAux rest2 ('\n' :: acc)
        else if e == 'r' then parseStringAux rest2 ('\r' :: acc)
        else if e == 't' then parseStringAux rest2 ('\t' :: acc)
        else if e == 'u' then
          match rest2 with
          | h1 :: h2 :: h3 :: h4 :: rest3 =>
            match hexVal h1, hexVal h2, hexVal h3, hexVal h4 with
            | some a, some b, some g, some d =>
              parseStringAux rest3
                (Char.ofNat (((a * 16 + b) * 16 + g) * 16 + d) :: acc)
            | _, _, _, _ => none
          | _ => none
        else none
    else if c.toNat < 32 then none
    else parseStringAux rest (c :: acc)

/-- Accumulate decimal digits into a natural number. -/
def digitsToNatAux : List Char → Nat → Nat
  | [], n => n
  | c :: cs, n => digitsToNatAux cs (n * 10 + (c.toNat - 48))

/-- Natural number denoted by a list of decimal digits. -/
def digitsToNat (ds : List Char) : Nat :=
  digitsToNatAux ds 0

/-- Parse a JSON number token at the head of the input, following the
strict grammar: optional minus, integer part without leading zeros,
optional fraction, optional exponent. Without fraction and exponent the
value is an integer, otherwise a float (kept as its exact rational). -/
def parseNumber (cs : List Char) : Option (Json × List Char) :=
  let (neg, cs1) :=
    match cs with
    | '-' :: r => (true, r)
    | _ => (false, cs)
  let ds := cs1.takeWhile Char.isDigit
  let cs2 := cs1.dropWhile Char.isDigit
  if ds.isEmpty then none
  else if ds.length > 1 && ds.head? == some '0' then none
  else
    let ipart : Nat := digitsToNat ds
    let fracRes : Option (List Char × List Char) :=
      match cs2 with
      | '.' :: cs3 =>
        let fs := cs3.takeWhile Char.isDigit
        if fs.isEmpty then none else some (fs, cs3.dropWhile Char.isDigit)
      | _ => some ([], cs2)
    match fracRes with
    | none => none
    | some (fs, cs4) =>
      let expRes : Option (Option (Bool × Nat) × List Char) :=
        match cs4 with
        | e :: cs5 =>
          if e == 'e' || e == 'E' then
            let (esign, cs6) :=
              match cs5 with
              | '+' :: r => (false, r)
              | '-' :: r => (true, r)
              | _ => (false, cs5)
            let es := cs6.takeWhile Char.isDigit
            if es.isEmpty then none
            else some (some (esign, digitsToNat es), cs6.dropWhile Char.isDigit)
          else some (none, cs4)
        | [] => some (none, cs4)
      match expRes with
      | none => none
      | some (expo, rest) =>
        if fs.isEmpty && expo.isNone then
          some (Json.numInt (if neg then -(ipart : Int) else (ipart : Int)), rest)
        else
          let base : Rat := (ipart : Rat) + (digitsToNat fs : Rat) / ((10 : Rat) ^ fs.length)
          let scaled : Rat :=
            match expo with
            | none => base
            | some (esign, e) =>
              if esign then base / ((10 : Rat) ^ e) else base * ((10 : Rat) ^ e)
          some (Json.numFloat (if neg then -scaled else scaled), rest)

mutual

/-- Parse one JSON value by recursive descent, indexed by fuel (loads
supplies ample fuel, see below). Leading whitespace is skipped. -/
def parseValue : Nat → List Char → Option (Json × List Char)
  | 0, _ => none
  | fuel + 1, cs =>
    match skipWs cs with
    | '\x7b' :: rest => parseObjFirst fuel rest
    | '[' :: rest => parseArrFirst fuel rest
    | '"' :: rest =>
      match parseStringAux rest [] with
      | some (s, r2) => some (Json.str s, r2)
      | none => none
    | 't' :: 'r' :: 'u' :: 'e' :: rest => some (Json.bool true, rest)
    | 'f' :: 'a' :: 'l' :: 's' :: 'e' :: rest => some (Json.bool false, rest)
    | 'n' :: 'u' :: 'l' :: 'l' :: rest => some (Json.null, rest)
    | cs2 => parseNumber cs2

/-- Parse the remainder of an array after the opening bracket. -/
def parseArrFirst : Nat → List Char → Option (Json × List Char)
  | 0, _ => none
  | fuel + 1, cs =>
    match skipWs cs with
    | ']' :: rest => some (Json.arr [], rest)
    | cs2 =>
      match parseValue fuel cs2 with
      | some (v, r2) => parseArrRest fuel [v] r2
      | none => none

/-- Parse the comma-separated tail of a nonempty array. -/
def parseArrRest : Nat → List Json → List Char → Option (Json × List Char)
  | 0, _, _ => none
  | fuel + 1, acc, cs =>
    match skipWs cs with
    | ',' :: rest =>
      match parseValue fuel rest with
      | some (v, r2) => parseArrRest fuel (acc ++ [v]) r2
      | none => none
    | ']' :: rest => some (Json.arr acc, rest)
    | _ => none

/-- Parse the remainder of an object after the opening brace. -/
def parseObjFirst : Nat → List Char → Option (Json × List Char)
  | 0, _ => none
  | fuel + 1, cs =>
    match skipWs cs with
    | '\x7d' :: rest => some (Json.obj [], rest)
    | cs2 =>
      match parseMember fuel cs2 with
      | some (k, v, r2) => parseObjRest fuel (upsert [] k v) r2
      | none => none

/-- Parse the comma-separated tail of a nonempty object. -/
def parseObjRest : Nat → List (String × Json) → List Char → Option (Json × List Char)
  | 0, _, _ => none
  | fuel + 1, acc, cs =>
    match skipWs cs with
    | ',' :: rest =>
      match parseMember fuel rest with
      | some (k, v, r2) => parseObjRest fuel (upsert acc k v) r2
      | none => none
    | '\x7d' :: rest => some (Json.obj acc, rest)
    | _ => none

/-- Parse one object member: a string key, a colon, then a value. -/
def parseMember : Nat → List Char → Option (String × Json × List Char)
  | 0, _ => none
  | fuel + 1, cs =>
    match skipWs cs with
    | '"' :: rest =>
      match parseStringAux rest [] with
      | some (k, r2) =>
        match skipWs r2 with
        | ':' :: r3 =>
          match parseValue fuel r3 with
          | some (v, r4) => some (k, v, r4)
          | none => none
        | _ => none
      | none => none
    | _ => none

end

/-- Model of json.loads: parse one JSON document; any parse failure or
trailing non-whitespace input (extra data) is an error, signalled by
none. The fuel bound is ample because every two consecutive recursive
calls of the descent consume at least one input character. -/
def loads (s : String) : Option Json :=
  match parseValue (2 * s.data.length + 2) s.data with
  | some (v, rest) => if (skipWs rest).isEmpty then some v else none
  | none => none

example : loads "[1]" = some (Json.arr [Json.numInt 1]) := rfl
example : loads "[oops]" = none := rfl
example : loads "" = none := rfl
example : loads "\x7b\"a\": 1\x7d" = some (Json.obj [("a", Json.numInt 1)]) := rfl
example : loads " \x7b\"a\": [true, null, -25, \"x\"]\x7d " =
    some (Json.obj [("a", Json.arr
      [Json.bool true, Json.null, Json.numInt (-25), Json.str "x"])]) := rfl
example : loads "\x7b\"a\": 1\x7d extra" = none := rfl

/-- The Python exceptions the script can raise while processing records,
plus the json decode error that escapes the loader in its array case. -/
inductive PyError where
  | typeError : PyError
  | valueError : PyError
  | attributeError : PyError
  | jsonDecodeError : PyError
deriving DecidableEq

/-- Python iteration over a value: lists yield their elements, strings
their one-character substrings, dicts their keys; other values raise
TypeError. -/
def pyIter : Json → Except PyError (List Json)
  | .arr xs => Except.ok xs
  | .str s => Except.ok (s.data.map (fun c => Json.str (String.mk [c])))
  | .obj kvs => Except.ok (kvs.map (fun kv => Json.str kv.1))
  | _ => Except.error PyError.typeError

/-- Python tuple unpacking of one iterable into two targets, as in the
loop header for player_name, entry in round_actions: any iterable of
exactly two elements unpacks, otherwise ValueError (or TypeError when
the value is not iterable at all). -/
def unpack2 (j : Json) : Except PyError (Json × Json) :=
  match pyIter j with
  | Except.error e => Except.error e
  | Except.ok [a, b] => Except.ok (a, b)
  | Except.ok _ => Except.error PyError.valueError

/-- The method call entry.get(key, default-empty-string): only dicts have
a get method, anything else raises AttributeError. -/
def entryGet (entry : Json) (k : String) : Except PyError Json :=
  match entry with
  | .obj kvs => Except.ok ((dictGet kvs k).getD (Json.str ""))
  | _ => Except.error PyError.attributeError

/-- The Python expression needle in container for a string needle:
substring test on strings, key test on dicts, membership on lists;
TypeError on non-container values. -/
def pyIn (needle : String) : Json → Except PyError Bool
  | .str s => Except.ok (hasInfix needle.data s.data)
  | .obj kvs => Except.ok (kvs.any (fun kv => kv.1 == needle))
  | .arr xs => Except.ok (xs.any (fun x => Json.beq x (Json.str needle)))
  | _ => Except.error PyError.typeError

/-- format_conversation from the script: wrap a prompt/response pair into
the delimited conversation string. -/
def format_conversation (prompt response : String) : String :=
  "<im_start>user\n" ++ prompt ++ "<im_end>\n<im_start>assistant\n" ++
    response ++ "<im_end>"

/-- Case C of load_games: the JSONL loop body. Each line is stripped;
blank lines are skipped; a line parsing to a dict is appended to the
accumulator; parse failures and non-dict lines are skipped. -/
def loadLinesAux : List String → List Json → List Json
  | [], games => games
  | line :: rest, games =>
    let l := pyStrip line
    if l.data.isEmpty then loadLinesAux rest games
    else
      match loads l with
      | some o => if o.isObj then loadLinesAux rest (games ++ [o]) else loadLinesAux rest games
      | none => loadLinesAux rest games

/-- Case C of load_games applied to the stripped file content. -/
def loadCaseC (raw : String) : List Json :=
  loadLinesAux (pySplitlines raw) []

/-- Cases B and C of load_games: try to parse the whole content, return a
singleton on a dict, otherwise (parse failure caught, or a non-dict
value) fall through to the JSONL loop. -/
def loadCaseBC (raw : String) : List Json :=
  match loads raw with
  | some o => if o.isObj then [o] else loadCaseC raw
  | none => loadCaseC raw

/-- The guard of case A of load_games: stripped content starts with an
opening and ends with a closing square bracket. -/
def caseAGuard (raw : String) : Bool :=
  pyStartsWith raw "[" && pyEndsWith raw "]"

/-- load_games on already-stripped content. In case A the json.loads call
sits outside any try block, so a failing parse propagates the decode
error; a successful parse of a list is returned unfiltered; otherwise
control falls through to cases B and C. -/
def loadStripped (raw : String) : Except PyError (List Json) :=
  if caseAGuard raw then
    match loads raw with
    | none => Except.error PyError.jsonDecodeError
    | some d =>
      match d with
      | Json.arr xs => Except.ok xs
      | _ => Except.ok (loadCaseBC raw)
  else Except.ok (loadCaseBC raw)

/-- load_games from the script, modelled on the file content (the file
read itself, and I/O failures of a missing or unreadable file, live
outside the model): strip the content, then apply the three-case
fallback. -/
def load_games (raw0 : String) : Except PyError (List Json) :=
  loadStripped (pyStrip raw0)

/-- One output example: a mapping with the single key text. -/
structure Example where
  text : String
deriving DecidableEq

/-- The eliminate branch of process_logs for one record: emit one
werewolf example when the eliminate field is a dict whose prompt and
raw_resp values are truthy; the values are interpolated through str()
by format_conversation. This branch cannot raise. -/
def extractEliminate (kvs : List (String × Json)) : List Example :=
  match dictGet kvs "eliminate" with
  | some (Json.obj elim) =>
    match dictGet elim "prompt", dictGet elim "raw_resp" with
    | some p, some r =>
      if pyTruthy p && pyTruthy r then
        [⟨format_conversation (pyStr p) (pyStr r)⟩]
      else []
    | some _, none => []
    | none, _ => []
  | _ => []

/-- The body of the inner bid loop for one round element: unpack the
(player_name, entry) pair, read prompt and raw_resp with entry.get
(AttributeError on a non-dict entry), test the membership of
"the Villager" in the prompt, and append a villager example to the
accumulator when the condition holds. -/
def bidEntryStep (v : List Example) (pair : Json) : Except PyError (List Example) :=
  match unpack2 pair with
  | Except.error e => Except.error e
  | Except.ok (_, entry) =>
    match entryGet entry "prompt" with
    | Except.error e => Except.error e
    | Except.ok prompt =>
      match entryGet entry "raw_resp" with
      | Except.error e => Except.error e
      | Except.ok raw =>
        match pyIn "the Villager" prompt with
        | Except.error e => Except.error e
        | Except.ok c =>
          if c && pyTruthy prompt && pyTruthy raw then
            Except.ok (v ++ [⟨format_conversation (pyStr prompt) (pyStr raw)⟩])
          else Except.ok v

/-- The inner bid loop over the elements of one round. -/
def bidRoundLoop (v : List Example) : List Json → Except PyError (List Example)
  | [] => Except.ok v
  | p :: ps =>
    match bidEntryStep v p with
    | Except.error e => Except.error e
    | Except.ok v2 => bidRoundLoop v2 ps

/-- The outer bid loop over the rounds of one record; each round is
itself iterated (TypeError when it is not iterable). -/
def bidLoop (v : List Example) : List Json → Except PyError (List Example)
  | [] => Except.ok v
  | r :: rs =>
    match pyIter r with
    | Except.error e => Except.error e
    | Except.ok pairs =>
      match bidRoundLoop v pairs with
      | Except.error e => Except.error e
      | Except.ok v2 => bidLoop v2 rs

/-- The bid branch of process_logs for one record: game.get("bid", [])
then the two nested loops, threading the villager accumulator. -/
def gameBid (kvs : List (String × Json)) (v : List Example) :
    Except PyError (List Example) :=
  match pyIter ((dictGet kvs "bid").getD (Json.arr [])) with
  | Except.error e => Except.error e
  | Except.ok rounds => bidLoop v rounds

/-- The loop of process_logs over loaded records, threading the two
accumulators; non-dict records are skipped by the defensive guard. -/
def processGamesAux (w v : List Example) : List Json →
    Except PyError (List Example × List Example)
  | [] => Except.ok (w, v)
  | g :: gs =>
    match g with
    | Json.obj kvs =>
      let w2 := w ++ extractEliminate kvs
      match gameBid kvs v with
      | Except.error e => Except.error e
      | Except.ok v2 => processGamesAux w2 v2 gs
    | _ => processGamesAux w v gs

/-- process_logs from the script, modelled on one loaded record sequence
(the directory walk concatenates such sequences; every claim below is
about the processing of the loaded records). -/
def process_logs (games : List Json) : Except PyError (List Example × List Example) :=
  processGamesAux [] [] games

/-- Modelled from the spec (ordering policy of section 4.2), for the
refinement statements: the villager examples contributed by one round
element on its own. -/
def villOfEntry (pair : Json) : Except PyError (List Example) :=
  bidEntryStep [] pair

/-- Modelled from the spec: the villager examples of a list of round
elements, the concatenation of the element contributions in element
order (the first failing element aborts). -/
def villOfRoundList : List Json → Except PyError (List Example)
  | [] => Except.ok []
  | p :: ps =>
    match villOfEntry p with
    | Except.error e => Except.error e
    | Except.ok l =>
      match villOfRoundList ps with
      | Except.error e => Except.error e
      | Except.ok ls => Except.ok (l ++ ls)

/-- Modelled from the spec: the villager examples of one bid round. -/
def villOfRound (r : Json) : Except PyError (List Example) :=
  match pyIter r with
  | Except.error e => Except.error e
  | Except.ok ps => villOfRoundList ps

/-- Modelled from the spec: the villager examples of a list of rounds,
the concatenation of the round contributions in round order. -/
def villGameList : List Json → Except PyError (List Example)
  | [] => Except.ok []
  | r :: rs =>
    match villOfRound r with
    | Except.error e => Except.error e
    | Except.ok l =>
      match villGameList rs with
      | Except.error e => Except.error e
      | Except.ok ls => Except.ok (l ++ ls)

/-- Modelled from the spec: the villager examples of one record. -/
def villOfGame (kvs : List (String × Json)) : Except PyError (List Example) :=
  match pyIter ((dictGet kvs "bid").getD (Json.arr [])) with
  | Except.error e => Except.error e
  | Except.ok rounds => villGameList rounds

/-- Modelled from the spec: the two example lists contributed by one
record on its own. -/
def partsOfGame (g : Json) : Except PyError (List Example × List Example) :=
  match g with
  | Json.obj kvs =>
    match villOfGame kvs with
    | Except.error e => Except.error e
    | Except.ok v => Except.ok (extractEliminate kvs, v)
  | _ => Except.ok ([], [])

/-- Modelled from the spec: processing a record sequence category by
category, each category the concatenation of the per-record
contributions in record order. -/
def partsList : List Json → Except PyError (List Example × List Example)
  | [] => Except.ok ([], [])
  | g :: gs =>
    match partsOfGame g with
    | Except.error e => Except.error e
    | Except.ok (w1, v1) =>
      match partsList gs with
      | Except.error e => Except.error e
      | Except.ok (w2, v2) => Except.ok (w1 ++ w2, v1 ++ v2)

/-- Modelled from the spec (section 8, JSONL property): the mapping one
line of a JSONL file contributes, if any. -/
def lineMapping (line : String) : Option Json :=
  match loads (pyStrip line) with
  | some o => if o.isObj then some o else none
  | none => none

/-- Modelled from the spec: the JSONL reading of a whole content, the
contributing lines in line order. -/
def jsonlSpec (raw : String) : List Json :=
  (pySplitlines raw).filterMap lineMapping

example :
    process_logs [Json.obj [("eliminate",
      Json.obj [("prompt", Json.str "P"), ("raw_resp", Json.str "R")])]] =
    Except.ok ([⟨format_conversation "P" "R"⟩], []) := rfl

example :
    process_logs [Json.obj [("bid", Json.arr [Json.arr [Json.arr
      [Json.str "Alice", Json.obj [("prompt", Json.str "ask the Villager X"),
        ("raw_resp", Json.str "Y")]]]])]] =
    Except.ok ([], [⟨format_conversation "ask the Villager X" "Y"⟩]) := rfl

example :
    process_logs [Json.obj [("bid", Json.arr [Json.arr [Json.arr
      [Json.str "Alice", Json.str "oops"]]])]] =
    Except.error PyError.attributeError := rfl

example : load_games "[oops]" = Except.error PyError.jsonDecodeError := rfl

example : load_games "  \n " = Except.ok [] := rfl

example : load_games "\x7b\"a\": 1\x7d\nnope\n\n\x7b\"b\": 2\x7d" =
    Except.ok [Json.obj [("a", Json.numInt 1)], Json.obj [("b", Json.numInt 2)]] := rfl

lemma data_isEmpty_false (s : String) (h : s ≠ "") : s.data.isEmpty = false := by
  cases s with
  | mk l =>
    cases l with
    | nil => exact absurd rfl h
    | cons c cs => rfl

lemma extractEliminate_pair (p r : Json) :
    extractEliminate [("eliminate", Json.obj [("prompt", p), ("raw_resp", r)])] =
      if pyTruthy p && pyTruthy r then
        [⟨format_conversation (pyStr p) (pyStr r)⟩]
      else [] := rfl

/-- C3: format_conversation returns exactly the delimited concatenation of
its two arguments, inserted verbatim with no other characters, and on
the pair ("hi", "yo") it returns the documented literal string. -/
theorem claim3_format_exact :
    (∀ p r : String, format_conversation p r =
      "<im_start>user\n" ++ p ++ "<im_end>\n<im_start>assistant\n" ++ r ++ "<im_end>") ∧
    format_conversation "hi" "yo" =
      "<im_start>user\nhi<im_end>\n<im_start>assistant\nyo<im_end>" :=
  ⟨fun _ _ => rfl, by decide⟩

/-- C4: a record whose eliminate field maps prompt to a nonempty string P
and raw_resp to a nonempty string R yields exactly one werewolf example,
with text format_conversation P R, and no villager example; the same
record without the raw_resp key yields no example at all. -/
theorem claim4_eliminate_record (P R : String) (hp : P ≠ "") (hr : R ≠ "") :
    process_logs [Json.obj [("eliminate",
        Json.obj [("prompt", Json.str P), ("raw_resp", Json.str R)])]] =
      Except.ok ([⟨format_conversation P R⟩], []) ∧
    process_logs [Json.obj [("eliminate",
        Json.obj [("prompt", Json.str P)])]] =
      Except.ok ([], []) := by
  constructor
  · have key : extractEliminate
        [("eliminate", Json.obj [("prompt", Json.str P), ("raw_resp", Json.str R)])] =
        [⟨format_conversation P R⟩] := by
      rw [extractEliminate_pair, if_pos]
      · rfl
      · simp [pyTruthy, data_isEmpty_false P hp, data_isEmpty_false R hr]
    have base : process_logs [Json.obj [("eliminate",
        Json.obj [("prompt", Json.str P), ("raw_resp", Json.str R)])]] =
        Except.ok (extractEliminate
          [("eliminate", Json.obj [("prompt", Json.str P), ("raw_resp", Json.str R)])], []) := rfl
    rw [base, key]
  · rfl

/-- C4 witness: the theorem applied at the concrete pair ("P", "R"). -/
theorem claim4_eliminate_record_witness :
    process_logs [Json.obj [("eliminate",
        Json.obj [("prompt", Json.str "P"), ("raw_resp", Json.str "R")])]] =
      Except.ok ([⟨format_conversation "P" "R"⟩], []) ∧
    process_logs [Json.obj [("eliminate",
        Json.obj [("prompt", Json.str "P")])]] =
      Except.ok ([], []) :=
  claim4_eliminate_record "P" "R" (by decide) (by decide)

/-- C5: for a well-shaped bid round element whose entry is a mapping with
string prompt and raw_resp, a villager example is appended exactly when
the substring "the Villager" occurs in the prompt and both strings are
nonempty; in particular the documented single-entry record yields one
villager example and the variant without the substring yields none. -/
theorem claim5_villager_bid :
    (∀ (pn : Json) (P R : String) (v : List Example),
      bidEntryStep v (Json.arr [pn,
          Json.obj [("prompt", Json.str P), ("raw_resp", Json.str R)]]) =
        Except.ok (if hasInfix "the Villager".data P.data
            && !P.data.isEmpty && !R.data.isEmpty then
          v ++ [⟨format_conversation P R⟩]
        else v)) ∧
    process_logs [Json.obj [("bid", Json.arr [Json.arr [Json.arr
        [Json.str "Alice", Json.obj [("prompt", Json.str "ask the Villager X"),
          ("raw_resp", Json.str "Y")]]]])]] =
      Except.ok ([], [⟨format_conversation "ask the Villager X" "Y"⟩]) ∧
    process_logs [Json.obj [("bid", Json.arr [Json.arr [Json.arr
        [Json.str "Alice", Json.obj [("prompt", Json.str "ask X"),
          ("raw_resp", Json.str "Y")]]]])]] =
      Except.ok ([], []) := by
  refine ⟨fun pn P R v => ?_, rfl, rfl⟩
  simp [bidEntryStep, unpack2, pyIter, entryGet, dictGet, List.find?, pyIn, pyTruthy, pyStr]
  split <;> rfl

/-- C10: a record whose bid field holds a round with a correctly shaped
two-element pair whose entry is not a mapping (here the string "oops")
makes extraction raise an error: the get call on the non-mapping entry
fails with AttributeError. -/
theorem claim10_nonmapping_entry_raises :
    process_logs [Json.obj [("bid", Json.arr [Json.arr
        [Json.arr [Json.str "Alice", Json.str "oops"]]])]] =
      Except.error PyError.attributeError := rfl

/-- C7 counterexample: a record whose eliminate prompt is the integer 5
(not a string) still has an example emitted for it, with the integer
interpolated through str(); so an example is not emitted only for
present nonempty string fields. -/
theorem claim7_counterexample :
    process_logs [Json.obj [("eliminate",
        Json.obj [("prompt", Json.numInt 5), ("raw_resp", Json.str "R")])]] =
      Except.ok ([⟨format_conversation "5" "R"⟩], []) ∧
    dictGet [("prompt", Json.numInt 5), ("raw_resp", Json.str "R")] "prompt" =
      some (Json.numInt 5) ∧
    (Json.numInt 5).isStr = false :=
  ⟨rfl, rfl, rfl⟩

lemma pyStrip_all_ws (s : String) (h : ∀ c ∈ s.data, pyWs c = true) :
    pyStrip s = "" := by
  unfold pyStrip
  rw [List.dropWhile_eq_nil_iff.mpr h]
  rfl

/-- C9: a file whose content is empty or consists only of whitespace loads
to the empty sequence without raising: no loader case matches and the
line pass finds no non-blank line. -/
theorem claim9_whitespace_content (raw : String)
    (h : ∀ c ∈ raw.data, pyWs c = true) :
    load_games raw = Except.ok [] := by
  unfold load_games
  rw [pyStrip_all_ws raw h]
  rfl

/-- C9 witness: the theorem applied to a small all-whitespace content. -/
theorem claim9_whitespace_content_witness : load_games " \n\t " = Except.ok [] :=
  claim9_whitespace_content " \n\t " (by decide)

/-- C1 counterexample: content that starts with an opening and ends with
a closing bracket but is not valid JSON makes load_games raise the
decode error instead of returning a sequence. -/
theorem claim1_counterexample :
    load_games "[oops]" = Except.error PyError.jsonDecodeError := rfl

/-- C1 amended: on any readable content, load_games returns a sequence
without raising except in exactly one situation: the stripped content
starts with an opening and ends with a closing square bracket and fails
to parse as JSON, in which case the decode error propagates (I/O
failures of a missing or unreadable file are outside the model). -/
theorem claim1_loader_totality (raw : String) :
    (∃ xs, load_games raw = Except.ok xs) ↔
      ¬(caseAGuard (pyStrip raw) = true ∧ loads (pyStrip raw) = none) := by
  unfold load_games loadStripped
  by_cases hg : caseAGuard (pyStrip raw) = true
  · cases hl : loads (pyStrip raw) with
    | none => simp [hg, hl]
    | some d => cases d <;> simp [hg, hl]
  · simp [hg]

lemma loads_of_empty_data (s : String) (h : s.data = []) : loads s = none := by
  unfold loads
  rw [h]
  rfl

lemma loadLinesAux_filterMap (lines : List String) (acc : List Json) :
    loadLinesAux lines acc = acc ++ lines.filterMap lineMapping := by
  induction lines generalizing acc with
  | nil => simp [loadLinesAux]
  | cons line rest ih =>
    by_cases hb : (pyStrip line).data.isEmpty
    · have hm : lineMapping line = none := by
        unfold lineMapping
        rw [loads_of_empty_data _ (List.isEmpty_iff.mp hb)]
      simp [loadLinesAux, hb, ih, List.filterMap_cons, hm]
    · cases hl : loads (pyStrip line) with
      | none =>
        have hm : lineMapping line = none := by
          unfold lineMapping
          rw [hl]
        simp [loadLinesAux, hb, hl, ih, List.filterMap_cons, hm]
      | some o =>
        by_cases ho : o.isObj = true
        · have hm : lineMapping line = some o := by
            unfold lineMapping
            rw [hl]
            simp [ho]
          simp [loadLinesAux, hb, hl, ho, ih, List.filterMap_cons, hm]
        · have hm : lineMapping line = none := by
            unfold lineMapping
            rw [hl]
            simp [ho]
          simp [loadLinesAux, hb, hl, ho, ih, List.filterMap_cons, hm]

lemma loadCaseC_eq_jsonlSpec (raw : String) : loadCaseC raw = jsonlSpec raw := by
  unfold loadCaseC jsonlSpec
  rw [loadLinesAux_filterMap]
  rfl

lemma loadCaseBC_isObj (raw : String) (j : Json) (hj : j ∈ loadCaseBC raw) :
    j.isObj = true := by
  have hC : ∀ i ∈ loadCaseC raw, Json.isObj i = true := by
    rw [loadCaseC_eq_jsonlSpec]
    intro i hi
    rcases List.mem_filterMap.mp hi with ⟨line, _, hline⟩
    unfold lineMapping at hline
    rcases hparse : loads (pyStrip line) with _ | o
    · rw [hparse] at hline
      exact Option.noConfusion hline
    · rw [hparse] at hline
      have hline2 : (if o.isObj = true then some o else none) = some i := hline
      by_cases ho : o.isObj = true
      · rw [if_pos ho] at hline2
        cases hline2
        exact ho
      · rw [if_neg ho] at hline2
        exact Option.noConfusion hline2
  unfold loadCaseBC at hj
  rcases hparse : loads raw with _ | o
  · rw [hparse] at hj
    exact hC j hj
  · rw [hparse] at hj
    have hj2 : j ∈ (if o.isObj = true then [o] else loadCaseC raw) := hj
    by_cases ho : o.isObj = true
    · rw [if_pos ho] at hj2
      rcases List.mem_singleton.mp hj2 with rfl
      exact ho
    · rw [if_neg ho] at hj2
      exact hC j hj2

lemma filterMap_length_countP {α β : Type} (f : α → Option β) :
    ∀ l : List α, (l.filterMap f).length = l.countP (fun a => (f a).isSome) := by
  intro l
  induction l with
  | nil => rfl
  | cons a l ih =>
    cases h : f a <;>
      simp [List.filterMap_cons, h, List.countP_cons, ih]

/-- C2 counterexample: a valid JSON array of non-mappings is returned as
is by load_games, so not every element of a returned sequence is a
mapping. -/
theorem claim2_counterexample :
    load_games "[1]" = Except.ok [Json.numInt 1] ∧
    (Json.numInt 1).isObj = false :=
  ⟨rfl, rfl⟩

/-- C2 amended: when the bracket guard of case A does not fire, every
element load_games returns is a mapping (cases B and C filter); when
the guard fires and the content parses as a JSON array, the array
elements are returned unfiltered, mappings or not. -/
theorem claim2_loader_mappings :
    (∀ (raw : String) (xs : List Json), caseAGuard (pyStrip raw) = false →
      load_games raw = Except.ok xs → ∀ j ∈ xs, j.isObj = true) ∧
    (∀ (raw : String) (xs : List Json), caseAGuard (pyStrip raw) = true →
      loads (pyStrip raw) = some (Json.arr xs) →
      load_games raw = Except.ok xs) := by
  constructor
  · intro raw xs hg hok j hj
    unfold load_games loadStripped at hok
    rw [hg] at hok
    have h2 : Except.ok (loadCaseBC (pyStrip raw)) =
        (Except.ok xs : Except PyError (List Json)) := hok
    cases h2
    exact loadCaseBC_isObj _ j hj
  · intro raw xs hg hl
    unfold load_games loadStripped
    rw [hg, hl]
    rfl

/-- C2 witness: both parts of the theorem at concrete contents, a single
JSON object file for the filtering part and the array [1] for the
passthrough part. -/
theorem claim2_loader_mappings_witness :
    (Json.obj [("a", Json.numInt 1)]).isObj = true ∧
    load_games "[1]" = Except.ok [Json.numInt 1] :=
  ⟨claim2_loader_mappings.1 "\x7b\"a\": 1\x7d" [Json.obj [("a", Json.numInt 1)]]
      rfl rfl (Json.obj [("a", Json.numInt 1)]) (List.mem_singleton.mpr rfl),
    claim2_loader_mappings.2 "[1]" [Json.numInt 1] rfl rfl⟩

/-- C6: when neither the array case guard nor the single-object case
applies, load_games returns exactly the mappings contributed by the
non-blank lines that parse as JSON mappings, in line order, skipping
blank, malformed and non-mapping lines; the count of returned mappings
is the count of contributing lines. -/
theorem claim6_jsonl_exact (raw : String)
    (hA : caseAGuard (pyStrip raw) = false)
    (hB : ∀ j, loads (pyStrip raw) = some j → j.isObj = false) :
    load_games raw = Except.ok (jsonlSpec (pyStrip raw)) ∧
    (jsonlSpec (pyStrip raw)).length =
      (pySplitlines (pyStrip raw)).countP (fun line => (lineMapping line).isSome) := by
  constructor
  · unfold load_games loadStripped
    rw [hA]
    show Except.ok (loadCaseBC (pyStrip raw)) = _
    unfold loadCaseBC
    rcases hparse : loads (pyStrip raw) with _ | o
    · rw [loadCaseC_eq_jsonlSpec]
    · have ho : o.isObj = false := hB o hparse
      have step : (if o.isObj = true then [o] else loadCaseC (pyStrip raw)) =
          jsonlSpec (pyStrip raw) := by
        rw [ho]
        simp only [Bool.false_eq_true, if_false]
        exact loadCaseC_eq_jsonlSpec _
      show Except.ok (if o.isObj = true then [o] else loadCaseC (pyStrip raw)) =
        Except.ok (jsonlSpec (pyStrip raw))
      rw [step]
  · exact filterMap_length_countP lineMapping (pySplitlines (pyStrip raw))

/-- C6 witness: the theorem applied to a concrete mixed JSONL content
with two mapping lines, one malformed line and one blank line. -/
theorem claim6_jsonl_exact_witness :
    load_games "\x7b\"a\": 1\x7d\nnope\n\n\x7b\"b\": 2\x7d" =
      Except.ok (jsonlSpec (pyStrip "\x7b\"a\": 1\x7d\nnope\n\n\x7b\"b\": 2\x7d")) ∧
    (jsonlSpec (pyStrip "\x7b\"a\": 1\x7d\nnope\n\n\x7b\"b\": 2\x7d")).length =
      (pySplitlines (pyStrip "\x7b\"a\": 1\x7d\nnope\n\n\x7b\"b\": 2\x7d")).countP
        (fun line => (lineMapping line).isSome) :=
  claim6_jsonl_exact "\x7b\"a\": 1\x7d\nnope\n\n\x7b\"b\": 2\x7d" rfl
    (fun j h => by
      rw [show loads (pyStrip "\x7b\"a\": 1\x7d\nnope\n\n\x7b\"b\": 2\x7d") = none from rfl] at h
      exact Option.noConfusion h)

/-- C7 amended: an example is emitted only when both prompt and raw_resp
are present and truthy for the source entry (for string values, truthy
means nonempty); the emitted text is format_conversation applied to the
str() renderings of the two values, which for string values are the
values themselves. The eliminate branch and the bid branch are covered
in turn. -/
theorem claim7_emission_invariant :
    (∀ (kvs : List (String × Json)) (e : Example), e ∈ extractEliminate kvs →
      ∃ elim p r, dictGet kvs "eliminate" = some (Json.obj elim) ∧
        dictGet elim "prompt" = some p ∧ dictGet elim "raw_resp" = some r ∧
        pyTruthy p = true ∧ pyTruthy r = true ∧
        e.text = format_conversation (pyStr p) (pyStr r)) ∧
    (∀ (v : List Example) (pair : Json) (v2 : List Example),
      bidEntryStep v pair = Except.ok v2 →
      v2 = v ∨ ∃ pn entry p r, unpack2 pair = Except.ok (pn, entry) ∧
        entryGet entry "prompt" = Except.ok p ∧
        entryGet entry "raw_resp" = Except.ok r ∧
        pyTruthy p = true ∧ pyTruthy r = true ∧
        v2 = v ++ [⟨format_conversation (pyStr p) (pyStr r)⟩]) := by
  constructor
  · intro kvs e he
    unfold extractEliminate at he
    split at he
    · rename_i elim h1
      split at he
      · rename_i p r h2 h3
        split at he
        · rename_i hc
          rcases List.mem_singleton.mp he with rfl
          simp only [Bool.and_eq_true] at hc
          rcases hc with ⟨hp, hr⟩
          exact ⟨elim, p, r, h1, h2, h3, hp, hr, rfl⟩
        · exact absurd he (List.not_mem_nil e)
      · exact absurd he (List.not_mem_nil e)
      · exact absurd he (List.not_mem_nil e)
    · exact absurd he (List.not_mem_nil e)
  · intro v pair v2 h
    unfold bidEntryStep at h
    split at h
    · exact Except.noConfusion h
    · rename_i pn entry h1
      split at h
      · exact Except.noConfusion h
      · rename_i p h2
        split at h
        · exact Except.noConfusion h
        · rename_i r h3
          split at h
          · exact Except.noConfusion h
          · rename_i c h4
            split at h
            · rename_i hc
              cases h
              simp only [Bool.and_eq_true] at hc
              rcases hc with ⟨⟨_, hp⟩, hr⟩
              exact Or.inr ⟨pn, entry, p, r, h1, h2, h3, hp, hr, rfl⟩
            · cases h
              exact Or.inl rfl

/-- C7 witness: the eliminate part of the theorem at a concrete record
with string fields, and the bid part at a concrete empty-entry pair. -/
theorem claim7_emission_invariant_witness :
    (∃ elim p r,
      dictGet [("eliminate",
          Json.obj [("prompt", Json.str "P"), ("raw_resp", Json.str "R")])]
          "eliminate" = some (Json.obj elim) ∧
        dictGet elim "prompt" = some p ∧ dictGet elim "raw_resp" = some r ∧
        pyTruthy p = true ∧ pyTruthy r = true ∧
        (⟨format_conversation "P" "R"⟩ : Example).text =
          format_conversation (pyStr p) (pyStr r)) ∧
    (([] : List Example) = [] ∨ ∃ pn entry p r,
      unpack2 (Json.arr [Json.str "A", Json.obj []]) = Except.ok (pn, entry) ∧
      entryGet entry "prompt" = Except.ok p ∧
      entryGet entry "raw_resp" = Except.ok r ∧
      pyTruthy p = true ∧ pyTruthy r = true ∧
      ([] : List Example) = [] ++ [⟨format_conversation (pyStr p) (pyStr r)⟩]) :=
  ⟨claim7_emission_invariant.1
      [("eliminate", Json.obj [("prompt", Json.str "P"), ("raw_resp", Json.str "R")])]
      ⟨format_conversation "P" "R"⟩ (List.mem_singleton.mpr rfl),
    claim7_emission_invariant.2 [] (Json.arr [Json.str "A", Json.obj []]) [] rfl⟩

lemma bidEntryStep_shift (v : List Example) (pair : Json) :
    bidEntryStep v pair =
      match villOfEntry pair with
      | Except.error e => Except.error e
      | Except.ok l => Except.ok (v ++ l) := by
  unfold villOfEntry bidEntryStep
  split
  · rfl
  · split
    · rfl
    · split
      · rfl
      · split
        · rfl
        · split <;> simp

lemma bidRoundLoop_spec (ps : List Json) :
    ∀ v : List Example, bidRoundLoop v ps =
      match villOfRoundList ps with
      | Except.error e => Except.error e
      | Except.ok ls => Except.ok (v ++ ls) := by
  induction ps with
  | nil => intro v; simp [bidRoundLoop, villOfRoundList]
  | cons p ps ih =>
    intro v
    show (match bidEntryStep v p with
      | Except.error e => Except.error e
      | Except.ok v2 => bidRoundLoop v2 ps) = _
    rw [bidEntryStep_shift]
    simp only [villOfRoundList]
    rcases hv : villOfEntry p with e | l
    · rfl
    · show bidRoundLoop (v ++ l) ps = _
      rw [ih]
      rcases hls : villOfRoundList ps with e | ls
      · rfl
      · simp [List.append_assoc]

lemma bidLoop_spec (rs : List Json) :
    ∀ v : List Example, bidLoop v rs =
      match villGameList rs with
      | Except.error e => Except.error e
      | Except.ok ls => Except.ok (v ++ ls) := by
  induction rs with
  | nil => intro v; simp [bidLoop, villGameList]
  | cons r rs ih =>
    intro v
    show (match pyIter r with
      | Except.error e => Except.error e
      | Except.ok pairs =>
        match bidRoundLoop v pairs with
        | Except.error e => Except.error e
        | Except.ok v2 => bidLoop v2 rs) = _
    simp only [villGameList, villOfRound]
    rcases hi : pyIter r with e | pairs
    · rfl
    · show (match bidRoundLoop v pairs with
        | Except.error e => Except.error e
        | Except.ok v2 => bidLoop v2 rs) =
        (match (match villOfRoundList pairs with
          | Except.error e => Except.error e
          | Except.ok l =>
            match villGameList rs with
            | Except.error e => Except.error e
            | Except.ok ls => Except.ok (l ++ ls)) with
        | Except.error e => Except.error e
        | Except.ok ls => Except.ok (v ++ ls))
      rw [bidRoundLoop_spec]
      rcases hl : villOfRoundList pairs with e | l
      · rfl
      · show bidLoop (v ++ l) rs = _
        rw [ih]
        rcases hls : villGameList rs with e | ls
        · rfl
        · simp [List.append_assoc]

lemma gameBid_spec (kvs : List (String × Json)) (v : List Example) :
    gameBid kvs v =
      match villOfGame kvs with
      | Except.error e => Except.error e
      | Except.ok ls => Except.ok (v ++ ls) := by
  unfold gameBid villOfGame
  split
  · rfl
  · rw [bidLoop_spec]

lemma processGamesAux_spec (gs : List Json) :
    ∀ w v : List Example, processGamesAux w v gs =
      match partsList gs with
      | Except.error e => Except.error e
      | Except.ok (w1, v1) => Except.ok (w ++ w1, v ++ v1) := by
  induction gs with
  | nil => intro w v; simp [processGamesAux, partsList]
  | cons g gs ih =>
    intro w v
    cases g with
    | obj kvs =>
      show (match gameBid kvs v with
        | Except.error e => Except.error e
        | Except.ok v2 => processGamesAux (w ++ extractEliminate kvs) v2 gs) = _
      rw [gameBid_spec]
      simp only [partsList, partsOfGame]
      rcases hg : villOfGame kvs with e | l
      · rfl
      · show processGamesAux (w ++ extractEliminate kvs) (v ++ l) gs = _
        rw [ih]
        rcases hps : partsList gs with e | ⟨w2, v2⟩
        · rfl
        · simp [List.append_assoc]
    | null =>
      show processGamesAux w v gs = _
      rw [ih]
      simp only [partsList, partsOfGame]
      rcases hps : partsList gs with e | ⟨w2, v2⟩
      · rfl
      · simp
    | bool b =>
      show processGamesAux w v gs = _
      rw [ih]
      simp only [partsList, partsOfGame]
      rcases hps : partsList gs with e | ⟨w2, v2⟩
      · rfl
      · simp
    | numInt n =>
      show processGamesAux w v gs = _
      rw [ih]
      simp only [partsList, partsOfGame]
      rcases hps : partsList gs with e | ⟨w2, v2⟩
      · rfl
      · simp
    | numFloat q =>
      show processGamesAux w v gs = _
      rw [ih]
      simp only [partsList, partsOfGame]
      rcases hps : partsList gs with e | ⟨w2, v2⟩
      · rfl
      · simp
    | str s =>
      show processGamesAux w v gs = _
      rw [ih]
      simp only [partsList, partsOfGame]
      rcases hps : partsList gs with e | ⟨w2, v2⟩
      · rfl
      · simp
    | arr xs =>
      show processGamesAux w v gs = _
      rw [ih]
      simp only [partsList, partsOfGame]
      rcases hps : partsList gs with e | ⟨w2, v2⟩
      · rfl
      · simp

/-- C8: the accumulator-threaded extractor loop equals the ordered
concatenation semantics: for every loaded record sequence, each output
category is the concatenation of the per-record contributions in record
order, the villager contribution of a record being the concatenation of
its round contributions in round order, and that of a round the
concatenation of its entry contributions in entry order. -/
theorem claim8_ordering (gs : List Json) : process_logs gs = partsList gs := by
  unfold process_logs
  rw [processGamesAux_spec]
  rcases partsList gs with e | ⟨w, v⟩ <;> simp
